import Mathlib

/-!
# Verification of the AOU GPA calculator core

A shallow embedding of the GPA-calculator logic of this repository:
the fixed grade-point scale and the data model (shared schema), the
cumulative and per-semester GPA aggregation, the ledger mutation
operations on semesters and courses, the catalog course filter, and
the in-memory session-record storage.  JavaScript numbers are modelled
as rationals, JavaScript `Math.round` as floor after adding one half,
and JavaScript truthiness of strings as inequality with the empty
string.
-/

/-- A course as in the shared schema: catalog data plus a grade field.
`facultyCode` is the list of faculties offering the course; a ledger
entry carries the grade string, where the empty string means ungraded. -/
structure Course where
  code : String
  name : String
  credits : ℚ
  facultyCode : List String
  grade : String
deriving DecidableEq

/-- A semester of the ledger: an opaque id, a user-visible name and an
ordered list of course entries. -/
structure Semester where
  id : String
  name : String
  courses : List Course
deriving DecidableEq

/-- The fixed grade-point map of the shared schema
(A 4.0, B+ 3.5, B 3.0, C+ 2.5, C 2.0, D 1.5, F 0.0);
lookup of any other key is undefined (`none`). -/
def gradePoints (g : String) : Option ℚ :=
  if g = "A" then some 4
  else if g = "B+" then some (7/2)
  else if g = "B" then some 3
  else if g = "C+" then some (5/2)
  else if g = "C" then some 2
  else if g = "D" then some (3/2)
  else if g = "F" then some 0
  else none

/-- The guard `course.grade && gradePoints[course.grade] !== undefined`
used by every aggregation loop of the source: the grade string is
truthy (non-empty) and is a key of the grade-point map. -/
def isGraded (c : Course) : Bool :=
  (c.grade != "") && (gradePoints c.grade).isSome

/-- The numeric value `gradePoints[course.grade]` of an entry that
passed the `isGraded` guard (0 as a default otherwise). -/
def gradeValue (c : Course) : ℚ :=
  (gradePoints c.grade).getD 0

/-- One step of the accumulation loop of `calculateGPA`: the running
(grade points, credits earned, completed-course count) triple updated
by one course entry. -/
def courseStep (acc : ℚ × ℚ × ℕ) (c : Course) : ℚ × ℚ × ℕ :=
  if isGraded c then
    (acc.1 + gradeValue c * c.credits, acc.2.1 + c.credits, acc.2.2 + 1)
  else acc

/-- The nested `forEach` loops of `calculateGPA`: fold every course of
every semester into the (points, credits, count) triple. -/
def gpaTotals (semesters : List Semester) : ℚ × ℚ × ℕ :=
  semesters.foldl (fun acc s => s.courses.foldl courseStep acc) (0, 0, 0)

/-- JavaScript `Math.round`: floor of the argument plus one half. -/
def jsRound (q : ℚ) : ℤ :=
  ⌊q + 1/2⌋

/-- The rounding `Math.round(gpa * 100) / 100` applied by the source to
every reported GPA. -/
def roundTo2 (q : ℚ) : ℚ :=
  (jsRound (q * 100) : ℚ) / 100

/-- `calculateGPA` of the GPA calculator component: the cumulative GPA
over all semesters, total grade points divided by total credits earned
when the latter is positive and 0 otherwise, rounded to two decimals. -/
def calculateGPA (semesters : List Semester) : ℚ :=
  let t := gpaTotals semesters
  let gpa := if t.2.1 > 0 then t.1 / t.2.1 else 0
  roundTo2 gpa

/-- `getCurrentSemesterGPA` of the GPA calculator component: 0 when no
semesters exist, otherwise the weighted average over the graded courses
of the last semester of the list, rounded, with 0 when that semester
has no graded credits. -/
def getCurrentSemesterGPA (semesters : List Semester) : ℚ :=
  match semesters.getLast? with
  | none => 0
  | some lastSemester =>
    let t := lastSemester.courses.foldl
      (fun acc c =>
        if isGraded c then (acc.1 + gradeValue c * c.credits, acc.2 + c.credits) else acc)
      ((0 : ℚ), (0 : ℚ))
    if t.2 > 0 then roundTo2 (t.1 / t.2) else 0

/-- `getSemesterGPA` of the semester-management component: the same
weighted average, written independently in the source, over the graded
courses of one given semester. -/
def getSemesterGPA (semester : Semester) : ℚ :=
  let t := semester.courses.foldl
    (fun acc c =>
      if isGraded c then (acc.1 + gradeValue c * c.credits, acc.2 + c.credits) else acc)
    ((0 : ℚ), (0 : ℚ))
  if t.2 > 0 then roundTo2 (t.1 / t.2) else 0

/-- All course entries of a ledger, in order: concatenation of the
course lists of its semesters. -/
def allCourses : List Semester → List Course
  | [] => []
  | s :: rest => s.courses ++ allCourses rest

/-- The course entries of a ledger that pass the `isGraded` guard. -/
def gradedCourses (semesters : List Semester) : List Course :=
  (allCourses semesters).filter isGraded

/-- Sum of grade points times credits over the graded entries. -/
def totalPoints (semesters : List Semester) : ℚ :=
  ((gradedCourses semesters).map fun c => gradeValue c * c.credits).sum

/-- Sum of credits over the graded entries. -/
def totalCreditsEarned (semesters : List Semester) : ℚ :=
  ((gradedCourses semesters).map Course.credits).sum

/-- The cumulative GPA as the specification words it: the weighted sum
over the graded entries divided by their credit sum, 0 when that credit
sum is 0, rounded to two decimal places. -/
def cumulativeGPASpec (semesters : List Semester) : ℚ :=
  if totalCreditsEarned semesters = 0 then 0
  else roundTo2 (totalPoints semesters / totalCreditsEarned semesters)

/-- Grade points times credits summed over the graded courses of a
single semester. -/
def semPoints (s : Semester) : ℚ :=
  ((s.courses.filter isGraded).map fun c => gradeValue c * c.credits).sum

/-- Credits summed over the graded courses of a single semester. -/
def semCredits (s : Semester) : ℚ :=
  ((s.courses.filter isGraded).map Course.credits).sum

/-- `addSemester` of the GPA calculator component, with the
`Date.now().toString()` identifier supplied as an argument: when the
ledger already holds 12 or more semesters it is returned unchanged and
the capacity error flag is true; otherwise one semester with the fresh
id, the default name and no courses is appended. -/
def addSemester (semesters : List Semester) (newId : String) : List Semester × Bool :=
  if semesters.length ≥ 12 then (semesters, true)
  else (semesters ++ [⟨newId, "Semester " ++ toString (semesters.length + 1), []⟩], false)

/-- `addCourseToSemester` of the semester-management component,
restricted to the targeted semester: the course entry is appended to
the course list. -/
def addCourseToSemester (semester : Semester) (course : Course) : Semester :=
  { semester with courses := semester.courses ++ [course] }

/-- `removeCourseFromSemester` of the semester-management component,
restricted to the targeted semester: every entry whose code equals the
given code is filtered out. -/
def removeCourseFromSemester (semester : Semester) (courseCode : String) : Semester :=
  { semester with courses := semester.courses.filter fun c => c.code != courseCode }

/-- `handleCourseSelect` of the course-search component combined with
the `addCourseToSemester` callback it invokes: when the course code is
already present in the semester a duplicate error is surfaced (flag
true) and the semester is unchanged; otherwise the course is appended
with its grade initialized to the empty string. -/
def handleCourseSelect (semester : Semester) (course : Course) : Semester × Bool :=
  if (semester.courses.map Course.code).contains course.code then (semester, true)
  else (addCourseToSemester semester { course with grade := "" }, false)

/-- Character-list test: the first list is an initial segment of the
second. -/
def startsWithCL : List Char → List Char → Bool
  | [], _ => true
  | _ :: _, [] => false
  | p :: ps, c :: cs => p == c && startsWithCL ps cs

/-- Character-list test: the first list occurs contiguously inside the
second. -/
def containsCL (pat : List Char) : List Char → Bool
  | [] => pat.isEmpty
  | c :: rest => startsWithCL pat (c :: rest) || containsCL pat rest

/-- JavaScript `haystack.includes(pattern)` on strings: contiguous
substring containment. -/
def strIncludes (hay pat : String) : Bool :=
  containsCL pat.data hay.data

/-- The `filteredCourses` memo of the course-search component: empty
result for an empty faculty code or an empty catalog; otherwise the
catalog filtered to courses offering the faculty, then, when the query
is at least two characters long, to case-insensitive substring matches
of the query against course code or name, then to codes not already in
the semester. -/
def filteredCourses (allCatalog : List Course) (selectedFaculty searchQuery : String)
    (existingCourses : List String) : List Course :=
  if selectedFaculty = "" ∨ allCatalog.length = 0 then []
  else
    let coursesByFaculty := allCatalog.filter fun c => c.facultyCode.contains selectedFaculty
    let coursesByQuery :=
      if searchQuery.length > 1 then
        coursesByFaculty.filter fun c =>
          strIncludes c.code.toLower searchQuery.toLower ||
          strIncludes c.name.toLower searchQuery.toLower
      else coursesByFaculty
    coursesByQuery.filter fun c => !existingCourses.contains c.code

/-- The catalog-filter contract as the specification words it, as a
single predicate: the course lists the faculty, the query matches when
it is at least two characters long (shorter queries apply no text
filter), and the course code is not excluded. -/
def courseMatchesSpec (c : Course) (selectedFaculty searchQuery : String)
    (existingCourses : List String) : Bool :=
  c.facultyCode.contains selectedFaculty &&
  (decide (searchQuery.length < 2) ||
    (strIncludes c.code.toLower searchQuery.toLower ||
     strIncludes c.name.toLower searchQuery.toLower)) &&
  !existingCourses.contains c.code

/-- The catalog-filter contract as the specification words it: an empty
faculty code yields an empty result, otherwise one pass over the
catalog keeping exactly the matching courses in catalog order. -/
def filteredCoursesSpec (allCatalog : List Course) (selectedFaculty searchQuery : String)
    (existingCourses : List String) : List Course :=
  if selectedFaculty = "" then []
  else allCatalog.filter fun c => courseMatchesSpec c selectedFaculty searchQuery existingCourses

/-- A persisted session record as in the shared schema and the
in-memory storage (numeric id, timestamps in epoch milliseconds). -/
structure UserRecord where
  id : Option ℕ
  sessionId : String
  facultyCode : String
  programCode : String
  semesters : List Semester
  createdAt : ℕ
  updatedAt : ℕ
deriving DecidableEq

/-- A partial session record (`Partial<InsertUserRecord>`): every field
optional, absent fields leaving the stored value untouched. -/
structure UserRecordPatch where
  sessionId : Option String
  facultyCode : Option String
  programCode : Option String
  semesters : Option (List Semester)
deriving DecidableEq

/-- The object spread `{ ...existing, ...partial, updatedAt: now }`
used by `updateUserRecord`: fields present in the partial record
override the stored ones and the update timestamp is refreshed. -/
def applyPatch (existing : UserRecord) (p : UserRecordPatch) (now : ℕ) : UserRecord :=
  { existing with
    sessionId := p.sessionId.getD existing.sessionId
    facultyCode := p.facultyCode.getD existing.facultyCode
    programCode := p.programCode.getD existing.programCode
    semesters := p.semesters.getD existing.semesters
    updatedAt := now }

/-- JavaScript `Map.set`: replace the value in place when the key is
present, append a new binding otherwise. -/
def mapSet (m : List (String × UserRecord)) (k : String) (v : UserRecord) :
    List (String × UserRecord) :=
  if (m.lookup k).isSome then m.map fun kv => if kv.1 = k then (k, v) else kv
  else m ++ [(k, v)]

/-- `MemStorage.updateUserRecord`: look the session id up in the record
map; when absent, throw (`Except.error`) leaving the map untouched;
when present, merge the partial record into the stored one, refresh the
update timestamp, store and return the merged record. -/
def updateUserRecord (store : List (String × UserRecord)) (sessionId : String)
    (p : UserRecordPatch) (now : ℕ) :
    List (String × UserRecord) × Except String UserRecord :=
  match store.lookup sessionId with
  | none => (store, Except.error "User record not found")
  | some existing =>
    let updated := applyPatch existing p now
    (mapSet store sessionId updated, Except.ok updated)

/-- The first course of the worked example of the specification:
8 credits, grade A. -/
def exCourseA : Course := ⟨"M110", "Python Programming", 8, ["itc"], "A"⟩

/-- The second course of the worked example of the specification:
4 credits, grade B. -/
def exCourseB : Course := ⟨"MS102", "Mathematics for Computing", 4, ["itc"], "B"⟩

/-- The single-semester ledger of the worked example. -/
def exSemester : Semester := ⟨"1700000000000", "Semester 1", [exCourseA, exCourseB]⟩

/-- A semester holding one graded A course (GPA 4). -/
def semHigh : Semester := ⟨"sA", "Semester 1", [⟨"CS101", "Intro to Programming", 3, ["itc"], "A"⟩]⟩

/-- A semester holding one graded F course (GPA 0). -/
def semLow : Semester := ⟨"sB", "Semester 2", [⟨"CS201", "Data Structures", 3, ["itc"], "F"⟩]⟩

lemma foldl_courseStep_eq (cs : List Course) (acc : ℚ × ℚ × ℕ) :
    cs.foldl courseStep acc =
      (acc.1 + ((cs.filter isGraded).map fun c => gradeValue c * c.credits).sum,
       acc.2.1 + ((cs.filter isGraded).map Course.credits).sum,
       acc.2.2 + (cs.filter isGraded).length) := by
  induction cs generalizing acc with
  | nil => simp
  | cons c rest ih =>
    cases h : isGraded c with
    | true =>
      simp only [List.foldl_cons, courseStep, h, if_true, ih, List.filter_cons, List.map_cons,
        List.sum_cons, List.length_cons, Prod.mk.injEq]
      refine ⟨by ring, by ring, by omega⟩
    | false =>
      simp [courseStep, h, ih, List.filter_cons]

lemma foldl_semesters_eq (ss : List Semester) (acc : ℚ × ℚ × ℕ) :
    ss.foldl (fun acc s => s.courses.foldl courseStep acc) acc =
      (acc.1 + totalPoints ss, acc.2.1 + totalCreditsEarned ss,
       acc.2.2 + (gradedCourses ss).length) := by
  induction ss generalizing acc with
  | nil => simp [totalPoints, totalCreditsEarned, gradedCourses, allCourses]
  | cons s rest ih =>
    calc (s :: rest).foldl (fun acc s => s.courses.foldl courseStep acc) acc
        = rest.foldl (fun acc s => s.courses.foldl courseStep acc)
            (s.courses.foldl courseStep acc) := rfl
      _ = ((s.courses.foldl courseStep acc).1 + totalPoints rest,
           (s.courses.foldl courseStep acc).2.1 + totalCreditsEarned rest,
           (s.courses.foldl courseStep acc).2.2 + (gradedCourses rest).length) := ih _
      _ = (acc.1 + totalPoints (s :: rest), acc.2.1 + totalCreditsEarned (s :: rest),
           acc.2.2 + (gradedCourses (s :: rest)).length) := by
          rw [foldl_courseStep_eq]
          simp only [totalPoints, totalCreditsEarned, gradedCourses, allCourses,
            List.filter_append, List.map_append, List.sum_append, List.length_append,
            Prod.mk.injEq]
          and_intros <;> ring

lemma gpaTotals_eq (ss : List Semester) :
    gpaTotals ss = (totalPoints ss, totalCreditsEarned ss, (gradedCourses ss).length) := by
  simpa using foldl_semesters_eq ss (0, 0, 0)

lemma roundTo2_zero : roundTo2 0 = 0 := by
  simp [roundTo2, jsRound]
  norm_num

lemma calculateGPA_eq (ss : List Semester) :
    calculateGPA ss =
      if totalCreditsEarned ss > 0 then
        roundTo2 (totalPoints ss / totalCreditsEarned ss)
      else 0 := by
  simp only [calculateGPA, gpaTotals_eq]
  by_cases h : totalCreditsEarned ss > 0
  · simp [h]
  · simp [h, roundTo2_zero]

lemma totalCreditsEarned_nonneg (ss : List Semester)
    (h : ∀ c ∈ allCourses ss, 0 ≤ c.credits) : 0 ≤ totalCreditsEarned ss := by
  apply List.sum_nonneg
  intro x hx
  obtain ⟨c, hc, rfl⟩ := List.mem_map.mp hx
  exact h c (List.mem_of_mem_filter hc)

lemma gradePoints_bounds (g : String) (q : ℚ) (h : gradePoints g = some q) :
    0 ≤ q ∧ q ≤ 4 := by
  unfold gradePoints at h
  split_ifs at h <;> simp_all <;> norm_num [← h]

lemma gradeValue_bounds (c : Course) (h : isGraded c = true) :
    0 ≤ gradeValue c ∧ gradeValue c ≤ 4 := by
  unfold isGraded at h
  rcases Bool.and_eq_true_iff.mp h with ⟨-, hsome⟩
  obtain ⟨q, hq⟩ := Option.isSome_iff_exists.mp hsome
  have := gradePoints_bounds c.grade q hq
  simp [gradeValue, hq, this]

lemma totalPoints_nonneg (ss : List Semester)
    (h : ∀ c ∈ allCourses ss, 0 ≤ c.credits) : 0 ≤ totalPoints ss := by
  apply List.sum_nonneg
  intro x hx
  obtain ⟨c, hc, rfl⟩ := List.mem_map.mp hx
  have hg := List.of_mem_filter hc
  exact mul_nonneg (gradeValue_bounds c hg).1 (h c (List.mem_of_mem_filter hc))

lemma totalPoints_le (ss : List Semester)
    (h : ∀ c ∈ allCourses ss, 0 ≤ c.credits) :
    totalPoints ss ≤ 4 * totalCreditsEarned ss := by
  unfold totalPoints totalCreditsEarned
  rw [← List.sum_map_mul_left]
  apply List.sum_le_sum
  intro c hc
  have hg := List.of_mem_filter hc
  have hcr := h c (List.mem_of_mem_filter hc)
  exact mul_le_mul_of_nonneg_right (gradeValue_bounds c hg).2 hcr

lemma roundTo2_nonneg (q : ℚ) (h : 0 ≤ q) : 0 ≤ roundTo2 q := by
  unfold roundTo2 jsRound
  apply div_nonneg _ (by norm_num)
  have : (0 : ℤ) ≤ ⌊q * 100 + 1 / 2⌋ := by
    apply Int.le_floor.mpr
    push_cast
    nlinarith
  exact_mod_cast this

lemma roundTo2_le_four (q : ℚ) (h : q ≤ 4) : roundTo2 q ≤ 4 := by
  unfold roundTo2 jsRound
  rw [div_le_iff₀ (by norm_num : (0:ℚ) < 100)]
  have hfl : ⌊q * 100 + 1 / 2⌋ ≤ ⌊(801 : ℚ) / 2⌋ := Int.floor_le_floor (by nlinarith)
  have h400 : ⌊(801 : ℚ) / 2⌋ = 400 := by norm_num
  have : (⌊q * 100 + 1 / 2⌋ : ℚ) ≤ 400 := by exact_mod_cast h400 ▸ hfl
  linarith

lemma totalPoints_eq_map_sum (ss : List Semester) :
    totalPoints ss = (ss.map semPoints).sum := by
  induction ss with
  | nil => simp [totalPoints, gradedCourses, allCourses]
  | cons s rest ih =>
    simp [totalPoints, gradedCourses, allCourses, List.filter_append, List.map_append,
      List.sum_append, semPoints, ← ih]

lemma totalCreditsEarned_eq_map_sum (ss : List Semester) :
    totalCreditsEarned ss = (ss.map semCredits).sum := by
  induction ss with
  | nil => simp [totalCreditsEarned, gradedCourses, allCourses]
  | cons s rest ih =>
    simp [totalCreditsEarned, gradedCourses, allCourses, List.filter_append, List.map_append,
      List.sum_append, semCredits, ← ih]

lemma totalPoints_perm (ss ss' : List Semester) (h : List.Perm ss ss') :
    totalPoints ss = totalPoints ss' := by
  rw [totalPoints_eq_map_sum, totalPoints_eq_map_sum]
  exact (h.map semPoints).sum_eq

lemma totalCreditsEarned_perm (ss ss' : List Semester) (h : List.Perm ss ss') :
    totalCreditsEarned ss = totalCreditsEarned ss' := by
  rw [totalCreditsEarned_eq_map_sum, totalCreditsEarned_eq_map_sum]
  exact (h.map semCredits).sum_eq

lemma foldl_pairStep_eq (cs : List Course) (acc : ℚ × ℚ) :
    cs.foldl
      (fun acc c =>
        if isGraded c then (acc.1 + gradeValue c * c.credits, acc.2 + c.credits) else acc)
      acc =
      (acc.1 + ((cs.filter isGraded).map fun c => gradeValue c * c.credits).sum,
       acc.2 + ((cs.filter isGraded).map Course.credits).sum) := by
  induction cs generalizing acc with
  | nil => simp
  | cons c rest ih =>
    cases h : isGraded c with
    | true =>
      simp only [List.foldl_cons, h, if_true, ih, List.filter_cons, List.map_cons,
        List.sum_cons, Prod.mk.injEq]
      and_intros <;> ring
    | false =>
      simp [h, ih, List.filter_cons]

lemma getSemesterGPA_eq (s : Semester) :
    getSemesterGPA s =
      if semCredits s > 0 then roundTo2 (semPoints s / semCredits s) else 0 := by
  simp only [getSemesterGPA, foldl_pairStep_eq, semPoints, semCredits, zero_add]

/-- C1: for every ledger whose course entries carry non-negative credit
counts, the cumulative GPA computed by `calculateGPA` equals the sum of
grade points times credits over the entries whose grade is a non-empty
key of the fixed grade-point map, divided by the credit sum over that
same filtered set, 0 when that credit sum is 0, rounded to two decimal
places; in particular the example ledger with (M110, 8 credits, A) and
(MS102, 4 credits, B) yields 3.67. -/
theorem calculateGPA_matches_spec (ss : List Semester)
    (hcred : ∀ c ∈ allCourses ss, 0 ≤ c.credits) :
    calculateGPA ss = cumulativeGPASpec ss ∧ calculateGPA [exSemester] = 367 / 100 := by
  constructor
  · rw [calculateGPA_eq]
    unfold cumulativeGPASpec
    by_cases h0 : totalCreditsEarned ss = 0
    · simp [h0]
    · have hpos : totalCreditsEarned ss > 0 :=
        lt_of_le_of_ne (totalCreditsEarned_nonneg ss hcred) (Ne.symm h0)
      simp [h0, hpos]
  · have ht : gpaTotals [exSemester] = (44, 12, 2) := by
      simp [gpaTotals, courseStep, isGraded, gradePoints, gradeValue, exSemester, exCourseA,
        exCourseB]
      norm_num
    simp only [calculateGPA, ht]
    norm_num [roundTo2, jsRound]

/-- Witness for C1 at the example ledger of the specification. -/
theorem calculateGPA_matches_spec_witness :
    calculateGPA [exSemester] = cumulativeGPASpec [exSemester] ∧
    calculateGPA [exSemester] = 367 / 100 :=
  calculateGPA_matches_spec [exSemester] (by decide)

/-- C2: for every ledger with non-negative credit counts, the
cumulative GPA lies in the closed interval [0, 4] whenever some entry
has a recognized grade, and is exactly 0 when no entry has a recognized
grade. -/
theorem calculateGPA_bounds (ss : List Semester)
    (hcred : ∀ c ∈ allCourses ss, 0 ≤ c.credits) :
    ((∃ c ∈ allCourses ss, (gradePoints c.grade).isSome) →
      0 ≤ calculateGPA ss ∧ calculateGPA ss ≤ 4) ∧
    ((∀ c ∈ allCourses ss, gradePoints c.grade = none) → calculateGPA ss = 0) := by
  constructor
  · intro _
    rw [calculateGPA_eq]
    by_cases hpos : totalCreditsEarned ss > 0
    · simp only [hpos, if_true]
      refine ⟨roundTo2_nonneg _ (div_nonneg (totalPoints_nonneg ss hcred) hpos.le), ?_⟩
      apply roundTo2_le_four
      rw [div_le_iff₀ hpos]
      linarith [totalPoints_le ss hcred]
    · simp [hpos]
  · intro hnone
    have hfil : gradedCourses ss = [] := by
      apply List.filter_eq_nil_iff.mpr
      intro c hc
      simp [isGraded, hnone c hc]
    rw [calculateGPA_eq]
    simp [totalCreditsEarned, hfil]

/-- Witness for C2 at the example ledger of the specification. -/
theorem calculateGPA_bounds_witness :
    0 ≤ calculateGPA [exSemester] ∧ calculateGPA [exSemester] ≤ 4 :=
  (calculateGPA_bounds [exSemester] (by decide)).1 (by decide)

/-- C3: `getCurrentSemesterGPA` performs the cumulative-GPA computation
restricted to the last semester of the list, and returns 0 both when
the semester list is empty and when the last semester has no entry with
a recognized, non-empty grade. -/
theorem getCurrentSemesterGPA_spec (ss : List Semester) :
    (ss = [] → getCurrentSemesterGPA ss = 0) ∧
    (∀ lastSem ∈ ss.getLast?,
      getCurrentSemesterGPA ss = calculateGPA [lastSem] ∧
      ((∀ c ∈ lastSem.courses, ¬ isGraded c = true) → getCurrentSemesterGPA ss = 0)) := by
  constructor
  · rintro rfl
    rfl
  · intro lastSem hmem
    have hlast : ss.getLast? = some lastSem := hmem
    have hcur : getCurrentSemesterGPA ss =
        if semCredits lastSem > 0 then roundTo2 (semPoints lastSem / semCredits lastSem)
        else 0 := by
      unfold getCurrentSemesterGPA
      rw [hlast]
      simp only [foldl_pairStep_eq, semPoints, semCredits, zero_add]
    have hcalc : calculateGPA [lastSem] =
        if semCredits lastSem > 0 then roundTo2 (semPoints lastSem / semCredits lastSem)
        else 0 := by
      rw [calculateGPA_eq]
      have h1 : totalPoints [lastSem] = semPoints lastSem := by
        simp [totalPoints, gradedCourses, allCourses, semPoints]
      have h2 : totalCreditsEarned [lastSem] = semCredits lastSem := by
        simp [totalCreditsEarned, gradedCourses, allCourses, semCredits]
      rw [h1, h2]
    refine ⟨hcur.trans hcalc.symm, ?_⟩
    intro hnog
    have hfil : lastSem.courses.filter isGraded = [] :=
      List.filter_eq_nil_iff.mpr (fun c hc => by simpa using hnog c hc)
    rw [hcur]
    simp [semCredits, hfil]

/-- Witness for C3 at the example ledger of the specification. -/
theorem getCurrentSemesterGPA_spec_witness :
    getCurrentSemesterGPA [exSemester] = calculateGPA [exSemester] :=
  ((getCurrentSemesterGPA_spec [exSemester]).2 exSemester rfl).1

/-- C10: on every non-empty semester list the most-recent-semester GPA
of `getCurrentSemesterGPA` equals `getSemesterGPA` applied to the last
element of the list: the two independently written weighted-average
routines agree on the last semester. -/
theorem getCurrentSemesterGPA_eq_getSemesterGPA (ss : List Semester) (h : ss ≠ []) :
    getCurrentSemesterGPA ss = getSemesterGPA (ss.getLast h) := by
  unfold getCurrentSemesterGPA getSemesterGPA
  rw [List.getLast?_eq_getLast ss h]

/-- Witness for C10 at the example ledger of the specification. -/
theorem getCurrentSemesterGPA_eq_getSemesterGPA_witness :
    getCurrentSemesterGPA [exSemester] =
      getSemesterGPA ([exSemester].getLast (List.cons_ne_nil exSemester [])) :=
  getCurrentSemesterGPA_eq_getSemesterGPA [exSemester] (List.cons_ne_nil exSemester [])

lemma getCurrentSemesterGPA_char (ss : List Semester) (lastSem : Semester)
    (h : ss.getLast? = some lastSem) :
    getCurrentSemesterGPA ss =
      if semCredits lastSem > 0 then roundTo2 (semPoints lastSem / semCredits lastSem)
      else 0 := by
  unfold getCurrentSemesterGPA
  rw [h]
  simp only [foldl_pairStep_eq, semPoints, semCredits, zero_add]

/-- C4: the cumulative GPA computed by `calculateGPA` is unchanged by
every permutation of the semester list, while the most-recent-semester
GPA of `getCurrentSemesterGPA` does change for some ledger and
permutation. -/
theorem gpa_semester_order (ss ss' : List Semester) (h : List.Perm ss ss') :
    calculateGPA ss = calculateGPA ss' ∧
    (∃ t t' : List Semester, List.Perm t t' ∧
      getCurrentSemesterGPA t ≠ getCurrentSemesterGPA t') := by
  constructor
  · rw [calculateGPA_eq, calculateGPA_eq, totalPoints_perm ss ss' h,
      totalCreditsEarned_perm ss ss' h]
  · refine ⟨[semHigh, semLow], [semLow, semHigh], List.Perm.swap semLow semHigh [], ?_⟩
    have hlow : getCurrentSemesterGPA [semHigh, semLow] = 0 := by
      rw [getCurrentSemesterGPA_char [semHigh, semLow] semLow rfl]
      have hp : semPoints semLow = 0 := by
        simp [semPoints, semLow, isGraded, gradePoints, gradeValue]
      have hc : semCredits semLow = 3 := by
        simp [semCredits, semLow, isGraded, gradePoints]
      rw [hp, hc]
      norm_num [roundTo2, jsRound]
    have hhigh : getCurrentSemesterGPA [semLow, semHigh] = 4 := by
      rw [getCurrentSemesterGPA_char [semLow, semHigh] semHigh rfl]
      have hp : semPoints semHigh = 12 := by
        simp [semPoints, semHigh, isGraded, gradePoints, gradeValue]
        norm_num
      have hc : semCredits semHigh = 3 := by
        simp [semCredits, semHigh, isGraded, gradePoints]
      rw [hp, hc]
      norm_num [roundTo2, jsRound]
    rw [hlow, hhigh]
    norm_num

/-- Witness for C4: swapping the two semesters of a concrete ledger
keeps the cumulative GPA. -/
theorem gpa_semester_order_witness :
    calculateGPA [semHigh, semLow] = calculateGPA [semLow, semHigh] :=
  (gpa_semester_order [semHigh, semLow] [semLow, semHigh]
    (List.Perm.swap semLow semHigh [])).1

/-- C5: with the ledger already at 12 semesters, `addSemester` leaves
the semester list unchanged and reports the capacity error; with fewer
than 12 semesters it appends exactly one semester with the fresh id and
the default name to the end of the list. -/
theorem addSemester_capacity (ss : List Semester) (newId : String) :
    (ss.length = 12 → addSemester ss newId = (ss, true)) ∧
    (ss.length < 12 →
      addSemester ss newId =
        (ss ++ [⟨newId, "Semester " ++ toString (ss.length + 1), []⟩], false)) := by
  constructor
  · intro h
    simp [addSemester, h]
  · intro h
    have hge : ¬ ss.length ≥ 12 := by omega
    simp [addSemester, hge]

/-- Witness for C5 at the empty ledger. -/
theorem addSemester_capacity_witness :
    addSemester ([] : List Semester) "1700000000001" =
      ([] ++ [⟨"1700000000001",
        "Semester " ++ toString (List.length ([] : List Semester) + 1), []⟩], false) :=
  (addSemester_capacity [] "1700000000001").2 (by decide)

/-- C6: selecting a catalog course whose code already occurs in the
semester surfaces the duplicate error and leaves the course list
unchanged; a course with a new code is appended with its grade
initialized to the empty string; hence course codes stay unique within
a semester. -/
theorem handleCourseSelect_duplicate (sem : Semester) (course : Course) :
    (course.code ∈ sem.courses.map Course.code → handleCourseSelect sem course = (sem, true)) ∧
    (course.code ∉ sem.courses.map Course.code →
      handleCourseSelect sem course =
        ({ sem with courses := sem.courses ++ [{ course with grade := "" }] }, false)) ∧
    ((sem.courses.map Course.code).Nodup →
      ((handleCourseSelect sem course).1.courses.map Course.code).Nodup) := by
  refine ⟨?_, ?_, ?_⟩
  · intro h
    have hc : (sem.courses.map Course.code).contains course.code = true := by simpa using h
    unfold handleCourseSelect
    rw [if_pos hc]
  · intro h
    have hc : (sem.courses.map Course.code).contains course.code = false := by simpa using h
    unfold handleCourseSelect
    rw [if_neg (by rw [hc]; exact Bool.false_ne_true)]
    rfl
  · intro hnd
    unfold handleCourseSelect
    by_cases h : course.code ∈ sem.courses.map Course.code
    · have hc : (sem.courses.map Course.code).contains course.code = true := by simpa using h
      rw [if_pos hc]
      exact hnd
    · have hc : (sem.courses.map Course.code).contains course.code = false := by simpa using h
      rw [if_neg (by rw [hc]; exact Bool.false_ne_true)]
      show ((sem.courses ++ [{ course with grade := "" }]).map Course.code).Nodup
      rw [List.map_append, List.nodup_append]
      refine ⟨hnd, by simp, ?_⟩
      intro a ha hb
      have hac : a = course.code := by simpa using hb
      exact h (hac ▸ ha)

/-- Witness for C6: adding a fresh course to the example semester. -/
theorem handleCourseSelect_duplicate_witness :
    handleCourseSelect exSemester ⟨"EL112", "English", 4, ["itc"], "C+"⟩ =
      ({ exSemester with
          courses := exSemester.courses ++
            [{ (⟨"EL112", "English", 4, ["itc"], "C+"⟩ : Course) with grade := "" }] },
        false) :=
  (handleCourseSelect_duplicate exSemester ⟨"EL112", "English", 4, ["itc"], "C+"⟩).2.1
    (by decide)

/-- C8: appending a course whose code is absent from the semester and
then removing by that same code restores the course list exactly. -/
theorem add_remove_roundtrip (sem : Semester) (course : Course)
    (h : course.code ∉ sem.courses.map Course.code) :
    (removeCourseFromSemester (addCourseToSemester sem course) course.code).courses =
      sem.courses := by
  simp only [removeCourseFromSemester, addCourseToSemester, List.filter_append]
  have h1 : [course].filter (fun c => c.code != course.code) = [] := by simp
  have h2 : sem.courses.filter (fun c => c.code != course.code) = sem.courses := by
    apply List.filter_eq_self.mpr
    intro c hc
    have hne : c.code ≠ course.code := by
      intro he
      exact h (he ▸ List.mem_map_of_mem Course.code hc)
    simpa using hne
  rw [h1, h2, List.append_nil]

/-- Witness for C8 at the example semester and a fresh course. -/
theorem add_remove_roundtrip_witness :
    (removeCourseFromSemester
      (addCourseToSemester exSemester ⟨"EL112", "English", 4, ["itc"], "C+"⟩)
      "EL112").courses = exSemester.courses :=
  add_remove_roundtrip exSemester ⟨"EL112", "English", 4, ["itc"], "C+"⟩ (by decide)

/-- C9: `updateUserRecord` fails with the not-found error exactly when
no record is stored under the session id, leaves the stored records
unchanged on failure, and returns the stored record merged with the
partial update on success. -/
theorem updateUserRecord_spec (store : List (String × UserRecord)) (sid : String)
    (p : UserRecordPatch) (now : ℕ) :
    ((updateUserRecord store sid p now).2 = Except.error "User record not found" ↔
      store.lookup sid = none) ∧
    (store.lookup sid = none → (updateUserRecord store sid p now).1 = store) ∧
    (∀ r, store.lookup sid = some r →
      (updateUserRecord store sid p now).2 = Except.ok (applyPatch r p now)) := by
  cases h : store.lookup sid with
  | none => simp [updateUserRecord, h]
  | some r => simp [updateUserRecord, h]

/-- Witness for C9 at a one-record store. -/
theorem updateUserRecord_spec_witness :
    (updateUserRecord [("sess1", ⟨some 1, "sess1", "itc", "cs", [exSemester], 1000, 1000⟩)]
        "sess1" ⟨none, none, some "it", none⟩ 2000).2 =
      Except.ok (applyPatch ⟨some 1, "sess1", "itc", "cs", [exSemester], 1000, 1000⟩
        ⟨none, none, some "it", none⟩ 2000) :=
  (updateUserRecord_spec [("sess1", ⟨some 1, "sess1", "itc", "cs", [exSemester], 1000, 1000⟩)]
      "sess1" ⟨none, none, some "it", none⟩ 2000).2.2 _ rfl

lemma filter_pair (l : List Course) (p1 p2 : Course → Bool) :
    (l.filter p1).filter p2 = l.filter fun c => p1 c && p2 c := by
  induction l with
  | nil => rfl
  | cons c cs ih =>
    cases h1 : p1 c <;> cases h2 : p2 c <;> simp [List.filter_cons, h1, h2, ih]

/-- C7: the course filter of the search component returns exactly the
catalog courses, in catalog order, that list the faculty, match the
query case-insensitively on code or name when the query is at least
two characters long (shorter queries apply no text filter), and whose
code is not excluded; an empty faculty code yields an empty result. -/
theorem filteredCourses_matches_spec (catalog : List Course) (fac q : String)
    (excl : List String) :
    filteredCourses catalog fac q excl = filteredCoursesSpec catalog fac q excl := by
  unfold filteredCourses filteredCoursesSpec
  by_cases hfac : fac = ""
  · simp [hfac]
  · rw [if_neg hfac]
    cases catalog with
    | nil => simp [hfac]
    | cons c cs =>
      rw [if_neg (by simp [hfac])]
      by_cases hq : q.length > 1
      · simp only [hq, if_true]
        rw [filter_pair, filter_pair]
        apply List.filter_congr
        intro x _
        have hq2 : decide (q.length < 2) = false := by
          simp only [decide_eq_false_iff_not]
          omega
        simp only [courseMatchesSpec, hq2, Bool.false_or, Bool.and_assoc]
      · simp only [hq, if_false]
        rw [filter_pair]
        apply List.filter_congr
        intro x _
        have hq2 : decide (q.length < 2) = true := by
          simp only [decide_eq_true_eq]
          omega
        simp only [courseMatchesSpec, hq2, Bool.true_or, Bool.and_true]
